import Mathlib

/-!
Shallow embedding of `src/processor.ts` from the mocha-test-debug-helper
repository, together with theorems settling the frozen claims about its
specification.

Text is modelled as `List Char`.  The TypeScript regular expressions that
the processor uses are translated into explicit decidable predicates with
JavaScript semantics (in particular `.` does not match line terminators and
`\s` is the JS whitespace class).  The ts-morph syntax tree, an external
library the processor calls, is modelled as an oracle value (`ParsedFile`)
holding exactly the structural facts the processor reads from it; every
function of the processor itself is translated faithfully.
-/

namespace MochaDebug

/-- Text and lines are lists of characters. -/
abbrev Str := List Char

/-- The JavaScript `\s` character class (also the set trimmed by
`String.prototype.trim`): space, tab, line feed, vertical tab, form feed,
carriage return and the Unicode space characters. -/
def isWS (c : Char) : Bool :=
  c = ' ' || c = '\t' || c = '\n' || c = '\x0b' || c = '\x0c' || c = '\r' ||
  c = '\u00a0' || c = '\u1680' || ('\u2000' ≤ c && c ≤ '\u200a') ||
  c = '\u2028' || c = '\u2029' || c = '\u202f' || c = '\u205f' ||
  c = '\u3000' || c = '\ufeff'

/-- A character matched by the JavaScript `.` (dot): anything except the
line terminators `\n`, `\r`, U+2028 and U+2029. -/
def isJsDot (c : Char) : Bool :=
  !(c = '\n' || c = '\r' || c = '\u2028' || c = '\u2029')

/-- JavaScript `String.prototype.trim`. -/
def trim (s : Str) : Str :=
  ((s.dropWhile isWS).reverse.dropWhile isWS).reverse

/-- `text.split(/\r?\n/)`: split on `\r\n` or a lone `\n`; a `\r` not
followed by `\n` is ordinary content. -/
def splitLines : Str → List Str
  | [] => [[]]
  | '\r' :: '\n' :: rest => [] :: splitLines rest
  | '\n' :: rest => [] :: splitLines rest
  | c :: rest =>
    match splitLines rest with
    | [] => [[c]]
    | l :: ls => (c :: l) :: ls

/-- `text.includes("\r\n")`. -/
def hasCRLF : Str → Bool
  | [] => false
  | '\r' :: '\n' :: _ => true
  | _ :: rest => hasCRLF rest

/-- The detected end-of-line sequence: `"\r\n"` when the text contains it
anywhere, otherwise `"\n"` (both occurrences in `processor.ts`). -/
def detectEol (text : Str) : Str :=
  if hasCRLF text then ['\r', '\n'] else ['\n']

/-- `lines.join(eol)`. -/
def joinLines (eol : Str) (lines : List Str) : Str :=
  List.intercalate eol lines

/-- `getLineStartOffsets`: running character offsets of the line starts,
assuming each line is followed by the detected terminator. -/
def lineStartOffsetsFrom (eolLen : Nat) (running : Nat) : List Str → List Nat
  | [] => []
  | l :: ls => running :: lineStartOffsetsFrom eolLen (running + l.length + eolLen) ls

/-- `getLineStartOffsets(lines, eol)`. -/
def getLineStartOffsets (lines : List Str) (eolLen : Nat) : List Nat :=
  lineStartOffsetsFrom eolLen 0 lines

/-- `DEBUG_TAG`. -/
def DEBUG_TAG : Str := "//@debug".toList

/-- `UNDEBUG_TAG`. -/
def UNDEBUG_TAG : Str := "//@undebug".toList

/-- The `Mode` union type. -/
inductive Mode where
  | debug
  | undebug
  deriving DecidableEq

/-- `MarkerInfo`. -/
structure MarkerInfo where
  mode : Mode
  markerLine : Nat
  markerOffset : Nat
  deriving DecidableEq

/-- The three `throw new Error(...)` sites of `getMarkerInfo`, one
constructor per thrown message. -/
inductive MarkerError where
  /-- "Multiple //@debug tags found." -/
  | multipleDebugTags
  /-- "Multiple //@undebug tags found." -/
  | multipleUndebugTags
  /-- "Found both //@debug and //@undebug tags." -/
  | conflictingTags
  deriving DecidableEq

/-- The indices (counted from `i0`) of the lines whose trimmed content
equals `tag`; the collection loop of `getMarkerInfo`. -/
def taggedIdx (tag : Str) (i0 : Nat) : List Str → List Nat
  | [] => []
  | l :: ls =>
    if trim l == tag then i0 :: taggedIdx tag (i0 + 1) ls
    else taggedIdx tag (i0 + 1) ls

/-- `getMarkerInfo`: locate the marker, enforce cardinality and
exclusivity.  `Except.error` models the thrown errors, `Except.ok none`
models the `undefined` return. -/
def getMarkerInfo (text : Str) : Except MarkerError (Option MarkerInfo) :=
  let lines := splitLines text
  let eol := detectEol text
  let offsets := getLineStartOffsets lines eol.length
  let debugLines := taggedIdx DEBUG_TAG 0 lines
  let undebugLines := taggedIdx UNDEBUG_TAG 0 lines
  if debugLines.length > 1 then .error .multipleDebugTags
  else if undebugLines.length > 1 then .error .multipleUndebugTags
  else if debugLines.length > 0 && undebugLines.length > 0 then .error .conflictingTags
  else if debugLines.length == 0 && undebugLines.length == 0 then .ok none
  else if debugLines.length == 1 then
    .ok (some ⟨Mode.debug, debugLines.headD 0, offsets.getD (debugLines.headD 0) 0⟩)
  else
    .ok (some ⟨Mode.undebug, undebugLines.headD 0, offsets.getD (undebugLines.headD 0) 0⟩)

/-! ### Configuration -/

/-- `DEFAULT_PROTECTED_FUNCTIONS`. -/
def DEFAULT_PROTECTED_FUNCTIONS : List Str :=
  ["describe".toList, "before".toList, "beforeEach".toList, "test".toList,
   "it".toList, "after".toList, "afterEach".toList, "step".toList]

/-- `DEFAULT_FUNCTION_ALLOWLIST`. -/
def DEFAULT_FUNCTION_ALLOWLIST : List Str := []

/-- `ProcessorConfig`. -/
structure ProcessorConfig where
  protectedFunctions : List Str
  functionAllowlist : List Str

/-- `Partial<ProcessorConfig>`: either field may be absent. -/
structure PartialConfig where
  protectedFunctions : Option (List Str)
  functionAllowlist : Option (List Str)

/-- The `config` argument left out entirely. -/
def emptyPartialConfig : PartialConfig := ⟨none, none⟩

/-- `normalizeConfig`: fall back to the defaults, trim every name and drop
the empty ones. -/
def normalizeConfig (config : PartialConfig) : ProcessorConfig :=
  ⟨((config.protectedFunctions.getD DEFAULT_PROTECTED_FUNCTIONS).map trim).filter
      (fun value => value.length > 0),
   ((config.functionAllowlist.getD DEFAULT_FUNCTION_ALLOWLIST).map trim).filter
      (fun value => value.length > 0)⟩

/-! ### The protected-call line pattern

`getProtectedCallLinePattern` builds the regular expression
`^\s*(?:\/\/+\s*)?(?:await\s+)?(?:fn1|fn2|...)\s*\(` (the function names
are inserted literally thanks to `escapeRegex`).  `patLineTest` decides
whether this regex matches a line.  The leading `\s*` and every inner
`\s*`/`\s+` can safely take their maximal match because each possible
continuation (`/`, `await`, a trimmed function name, `(`) starts with a
non-whitespace character; the only genuine backtracking is how many
characters the `\/\/+` atom consumes, which `slashCandidates` enumerates. -/

/-- Remainders reachable by the optional `(?:\/\/+\s*)?` group: skip it, or
consume `k ≥ 2` of the leading slashes (the regex atom is a `/` followed by
one or more `/`) and then whitespace. -/
def slashCandidates (r : Str) : List Str :=
  let m := (r.takeWhile (fun c => c = '/')).length
  r :: (List.range' 2 (m - 1)).map (fun k => (r.drop k).dropWhile isWS)

/-- Remainders reachable by the optional `(?:await\s+)?` group: skip it, or
consume a literal `await` followed by at least one whitespace character. -/
def awaitCandidates (r : Str) : List Str :=
  if "await".toList.isPrefixOf r && (((r.drop 5).takeWhile isWS).length > 0)
  then [r, (r.drop 5).dropWhile isWS]
  else [r]

/-- Whether `getProtectedCallLinePattern(pf)` matches `line` (the pattern
is only built when `pf` is non-empty; the caller checks that). -/
def patLineTest (pf : List Str) (line : Str) : Bool :=
  (slashCandidates (line.dropWhile isWS)).any fun r2 =>
    (awaitCandidates r2).any fun r3 =>
      pf.any fun fn =>
        fn.isPrefixOf r3 && ((r3.drop fn.length).dropWhile isWS).headD ' ' = '('

/-! ### Parse-view preprocessing -/

/-- `line.replace(/^(\s*)\/\//, "$1")`: drop the first comment marker after
the leading whitespace, if present. -/
def stripFirstCommentOfLine (line : Str) : Str :=
  let ws := line.takeWhile isWS
  let rest := line.dropWhile isWS
  if ['/', '/'].isPrefixOf rest then ws ++ rest.drop 2 else line

/-- `stripFirstCommentPrefixPerLine`: strip one comment marker from every
line and rejoin with `"\n"` (the join always uses `"\n"`, independently of
the original terminator). -/
def stripFirstCommentPrefixPerLine (text : Str) : Str :=
  joinLines ['\n'] ((splitLines text).map stripFirstCommentOfLine)

/-- The text handed to the parser: for undebug mode the comment-stripped
view, for debug mode the text itself. -/
def parseTextFor (mode : Mode) (text : Str) : Str :=
  match mode with
  | .undebug => stripFirstCommentPrefixPerLine text
  | .debug => text

/-! ### The syntax-tree oracle

ts-morph is an external library; the processor only ever reads the
following structural facts from the tree it returns, so the parse result is
modelled as a value holding exactly those facts.  All line numbers stored
in the oracle are 1-based, as returned by ts-morph's
`getStartLineNumber`/`getEndLineNumber`; the processor subtracts 1 where it
does so in the source. -/

/-- An initializer expression, as far as `getCallName` inspects it. -/
inductive Expr where
  /-- An identifier with its text. -/
  | ident (name : Str)
  /-- A property access `obj.name`. -/
  | propAccess (obj : Expr) (name : Str)
  /-- A call expression with its callee. -/
  | call (callee : Expr)
  /-- A parenthesized expression. -/
  | paren (e : Expr)
  /-- An `await` expression. -/
  | awaitE (e : Expr)
  /-- An `as` expression. -/
  | asE (e : Expr)
  /-- A `satisfies` expression. -/
  | satisfiesE (e : Expr)
  /-- An old-style type assertion `<T>e`. -/
  | typeAssertion (e : Expr)
  /-- A non-null assertion `e!`. -/
  | nonNull (e : Expr)
  /-- Any other expression kind (literals, `new` expressions, ...). -/
  | otherExpr
  deriving DecidableEq

/-- `unwrapExpression`: peel parentheses, `await`, `as`, `satisfies`, type
assertions and non-null assertions. -/
def unwrapExpression : Expr → Expr
  | .paren e => unwrapExpression e
  | .awaitE e => unwrapExpression e
  | .asE e => unwrapExpression e
  | .satisfiesE e => unwrapExpression e
  | .typeAssertion e => unwrapExpression e
  | .nonNull e => unwrapExpression e
  | e => e

/-- `getCallName`: the bare function or method name of a call-expression
initializer — the identifier text for a direct call, the property name for
a static/namespaced or instance call, `none` otherwise. -/
def getCallName (expression : Expr) : Option Str :=
  match unwrapExpression expression with
  | .call target =>
    match target with
    | .ident name => some name
    | .propAccess _ name => some name
    | _ => none
  | _ => none

/-- One `VariableDeclaration` of a variable statement. -/
structure VariableDeclaration where
  initializer : Option Expr
  deriving DecidableEq

/-- A `VariableStatement` node with its 1-based line span. -/
structure VariableStatementNode where
  startLineNumber : Nat
  endLineNumber : Nat
  declarations : List VariableDeclaration
  deriving DecidableEq

/-- `shouldProtectVariableStatement` (the `isVariableStatement` guard is
enforced by the type): protect unless some declaration's initializer is a
call whose resolved name is missing from the allowlist. -/
def shouldProtectVariableStatement (node : VariableStatementNode)
    (functionAllowlist : List Str) : Bool :=
  if node.declarations.isEmpty then true
  else
    node.declarations.all fun declaration =>
      match declaration.initializer with
      | none => true
      | some initializer =>
        match getCallName initializer with
        | none => true
        | some callName => functionAllowlist.contains callName

/-- The syntactic kind of a call argument, as far as
`getProtectedCallbackBodyBlock` distinguishes it. -/
inductive ArgKind where
  /-- A `FunctionExpression` argument. -/
  | functionExpr
  /-- An `ArrowFunction` argument. -/
  | arrowFunc
  /-- Any other argument. -/
  | otherArg
  deriving DecidableEq

/-- A call argument: its kind, and — when it is function-like and its body
is a `Block` — the 1-based start/end line numbers of that block. -/
structure CallArg where
  kind : ArgKind
  blockBody : Option (Nat × Nat)
  deriving DecidableEq

/-- A `CallExpression` node: the callee's identifier text when the callee
is an `Identifier`, the call's 1-based line span, and its arguments. -/
structure CallNode where
  calleeIdent : Option Str
  startLineNumber : Nat
  endLineNumber : Nat
  args : List CallArg
  deriving DecidableEq

/-- The `Node.isFunctionExpression(arg) || Node.isArrowFunction(arg)`
test. -/
def isFunctionLikeArg (arg : CallArg) : Bool :=
  match arg.kind with
  | .functionExpr => true
  | .arrowFunc => true
  | .otherArg => false

/-- `getProtectedCallbackBodyBlock`: the block body of the first
function-like argument, when that body is a `Block`. -/
def getProtectedCallbackBodyBlock (call : CallNode) : Option (Nat × Nat) :=
  match call.args.find? isFunctionLikeArg with
  | none => none
  | some arg => arg.blockBody

/-- One ancestor of the node found at the marker position, carrying the
structural facts `isProtectedCallbackBlock` inspects: whether the ancestor
is a `Block`, whether its parent exists and is an `ArrowFunction` or
`FunctionExpression`, the callee identifier text when that parent's parent
is a `CallExpression` whose callee is an `Identifier`, and the ancestor's
1-based start line. -/
structure AncestorInfo where
  isBlock : Bool
  parentIsFunctionLike : Bool
  parentCallCalleeIdent : Option Str
  startLineNumber : Nat
  deriving DecidableEq

/-- The parse result, as consumed by the processor: every descendant
`CallExpression`, every descendant `VariableStatement` (both in traversal
order), and `getDescendantAtPos` followed by `getAncestors` — for each
position, the found node's ancestors nearest-first, or `none` when no node
exists there. -/
structure ParsedFile where
  calls : List CallNode
  varStmts : List VariableStatementNode
  descendantAncestors : Nat → Option (List AncestorInfo)

/-- A parse with no recognizable structure at all. -/
def emptyParsedFile : ParsedFile := ⟨[], [], fun _ => none⟩

/-! ### Structural classification -/

/-- `ProtectedCallInfo` (0-based lines, like the source). -/
structure ProtectedCallInfo where
  startLine : Nat
  endLine : Nat
  bodyStartLine : Option Nat
  bodyEndLine : Option Nat
  deriving DecidableEq

/-- The record pushed by `getProtectedCallInfos` for one call node. -/
def callInfoOf (call : CallNode) : ProtectedCallInfo :=
  let body := getProtectedCallbackBodyBlock call
  ⟨call.startLineNumber - 1, call.endLineNumber - 1,
   body.map (fun b => b.1 - 1), body.map (fun b => b.2 - 1)⟩

/-- `getProtectedCallInfos`: line-range records for every call whose callee
is an identifier in the protected-function set. -/
def getProtectedCallInfos (calls : List CallNode) (protectedFunctions : List Str) :
    List ProtectedCallInfo :=
  (calls.filter fun call =>
      match call.calleeIdent with
      | some name => protectedFunctions.contains name
      | none => false).map callInfoOf

/-- `start ≤ n ≤ end`, the membership test of `addProtectedRange`. -/
def inRange (a b n : Nat) : Bool :=
  decide (a ≤ n) && decide (n ≤ b)

/-- The lines protected because of one call node (the call-expression
branch of `getProtectedLines`): the whole call span when no callback block
exists, otherwise the header range (call start through block start) and the
closer range (block end through call end). -/
def callProtectsLine (protectedFunctions : List Str) (call : CallNode) (n : Nat) : Bool :=
  match call.calleeIdent with
  | none => false
  | some fnName =>
    protectedFunctions.contains fnName &&
      (let callStart := call.startLineNumber - 1
       let callEnd := call.endLineNumber - 1
       match getProtectedCallbackBodyBlock call with
       | none => inRange callStart callEnd n
       | some body =>
         inRange callStart (body.1 - 1) n || inRange (body.2 - 1) callEnd n)

/-- The lines protected because of one variable statement (the
variable-statement branch of `getProtectedLines`). -/
def varStmtProtectsLine (functionAllowlist : List Str)
    (node : VariableStatementNode) (n : Nat) : Bool :=
  shouldProtectVariableStatement node functionAllowlist &&
    inRange (node.startLineNumber - 1) (node.endLineNumber - 1) n

/-- `getProtectedLines`, as the membership predicate of the set it
builds. -/
def getProtectedLines (pfile : ParsedFile) (protectedFunctions : List Str)
    (functionAllowlist : List Str) (n : Nat) : Bool :=
  pfile.calls.any (fun call => callProtectsLine protectedFunctions call n) ||
    pfile.varStmts.any (fun node => varStmtProtectsLine functionAllowlist node n)

/-- `getRegexProtectedLines`, as the membership predicate of the set it
builds: the in-range lines matching the protected-call pattern (the pattern
is `undefined`, matching nothing, when the function set is empty). -/
def getRegexProtectedLines (lines : List Str) (protectedFunctions : List Str)
    (n : Nat) : Bool :=
  if protectedFunctions.isEmpty then false
  else decide (n < lines.length) && patLineTest protectedFunctions (lines.getD n [])

/-- The protected-line predicate the rewrite loop consults: the structural
set unioned with the textual-fallback set. -/
def pipelineProtected (pfile : ParsedFile) (protectedFunctions : List Str)
    (functionAllowlist : List Str) (lines : List Str) (n : Nat) : Bool :=
  getProtectedLines pfile protectedFunctions functionAllowlist n ||
    getRegexProtectedLines lines protectedFunctions n

/-! ### Scope resolution and the ambiguity guard -/

/-- `callInfos.find(info => info.startLine === i)`. -/
def findCallInfoAtLine (infos : List ProtectedCallInfo) (i : Nat) :
    Option ProtectedCallInfo :=
  infos.find? (fun info => info.startLine == i)

/-- The backward scan of `hasAmbiguousInnerProtectedCallBeforeMarker`:
argument `n` means line index `n - 1` is examined next, counting down to
0. -/
def hasAmbigScan (lines : List Str) (markerLine : Nat)
    (infos : List ProtectedCallInfo) (protectedFunctions : List Str) : Nat → Bool
  | 0 => false
  | i + 1 =>
    if !patLineTest protectedFunctions (lines.getD i []) then
      hasAmbigScan lines markerLine infos protectedFunctions i
    else
      match findCallInfoAtLine infos i with
      | none => true
      | some info =>
        if info.endLine < markerLine then false
        else
          match info.bodyStartLine, info.bodyEndLine with
          | some bodyStart, some bodyEnd =>
            !(decide (markerLine > bodyStart) && decide (markerLine < bodyEnd))
          | _, _ => true

/-- `hasAmbiguousInnerProtectedCallBeforeMarker`: scan backward from the
line above the marker for the first protected-call-looking line and judge
it; `false` immediately when no pattern exists. -/
def hasAmbiguousInnerProtectedCallBeforeMarker (lines : List Str)
    (markerLine : Nat) (infos : List ProtectedCallInfo)
    (protectedFunctions : List Str) : Bool :=
  if protectedFunctions.isEmpty then false
  else hasAmbigScan lines markerLine infos protectedFunctions markerLine

/-- `isProtectedCallbackBlock`: the ancestor is a block whose parent is a
function or arrow expression that is itself (an argument of) a call to a
protected function name. -/
def isProtectedCallbackBlock (a : AncestorInfo) (protectedFunctions : List Str) : Bool :=
  a.isBlock && a.parentIsFunctionLike &&
    (match a.parentCallCalleeIdent with
     | some name => protectedFunctions.contains name
     | none => false)

/-- `getProcessingStartLine`: resolve the node at the marker offset (or one
position earlier), keep the ancestors that are protected callback blocks,
and return the nearest one's `getStartLineNumber()` — the source returns
the 1-based number here, without the `- 1` applied everywhere else. -/
def getProcessingStartLine (pfile : ParsedFile) (markerOffset : Nat)
    (protectedFunctions : List Str) : Option Nat :=
  let markerAncestors :=
    match pfile.descendantAncestors markerOffset with
    | some ancestors => some ancestors
    | none => pfile.descendantAncestors (markerOffset - 1)
  match markerAncestors with
  | none => none
  | some ancestors =>
    match ancestors.filter
        (fun a => a.isBlock && isProtectedCallbackBlock a protectedFunctions) with
    | [] => none
    | nearest :: _ => some nearest.startLineNumber

/-! ### The line rewriter -/

/-- `getLeadingWhitespace` (`^\s*` always matches, maximally). -/
def getLeadingWhitespace (line : Str) : Str :=
  line.takeWhile isWS

/-- One line's rewrite, mode branches of the loop body.  Debug: prepend two
slashes between the leading whitespace and the remainder.  Undebug: the
match of `/^(\s*)\/\/(.*)$/` — it succeeds exactly when the remainder after
the maximal whitespace prefix starts with `//` and everything after those
two slashes consists of characters the JS dot can match (no bare `\r`, no
U+2028/U+2029; `\n` cannot occur inside a split line) — on success keep the
whitespace and the text after the two slashes, otherwise leave the line
untouched. -/
def rewriteLine (mode : Mode) (line : Str) : Str :=
  match mode with
  | .debug =>
    let leadingWhitespace := getLeadingWhitespace line
    leadingWhitespace ++ '/' :: '/' :: line.dropWhile isWS
  | .undebug =>
    let ws := line.takeWhile isWS
    let rest := line.dropWhile isWS
    if ['/', '/'].isPrefixOf rest && (rest.drop 2).all isJsDot
    then ws ++ rest.drop 2
    else line

/-- The loop's skip conditions, combined: the line index is inside
`[processingStartLine, markerLine)`, not protected, and the line is neither
empty nor whitespace-only. -/
def lineEligible (prot : Nat → Bool) (startLine markerLine : Nat)
    (i : Nat) (line : Str) : Bool :=
  decide (startLine ≤ i) && decide (i < markerLine) && !prot i &&
    !(trim line).isEmpty

/-- The rewrite loop over the line array, current index `i0`. -/
def transformLinesFrom (mode : Mode) (prot : Nat → Bool)
    (startLine markerLine : Nat) (i0 : Nat) : List Str → List Str
  | [] => []
  | l :: ls =>
    (if lineEligible prot startLine markerLine i0 l then rewriteLine mode l else l) ::
      transformLinesFrom mode prot startLine markerLine (i0 + 1) ls

/-- The rewrite loop of `computeTransformedTextWithConfig` (lines 498-520):
every eligible line is rewritten, every other line kept. -/
def transformLines (mode : Mode) (prot : Nat → Bool)
    (startLine markerLine : Nat) (lines : List Str) : List Str :=
  transformLinesFrom mode prot startLine markerLine 0 lines

/-! ### The pipeline -/

/-- `computeTransformedTextWithConfig`.  `parse` stands for
`project.createSourceFile` applied to the parse text; everything else is
the processor's own code. -/
def computeTransformedTextWithConfig (parse : Str → ParsedFile)
    (config : PartialConfig) (text : Str) : Except MarkerError Str :=
  match getMarkerInfo text with
  | .error e => .error e
  | .ok none => .ok text
  | .ok (some markerInfo) =>
    let normalizedConfig := normalizeConfig config
    let protectedFunctions := normalizedConfig.protectedFunctions
    let functionAllowlist := normalizedConfig.functionAllowlist
    let lines := splitLines text
    let pfile := parse (parseTextFor markerInfo.mode text)
    let protectedCallInfos := getProtectedCallInfos pfile.calls protectedFunctions
    if hasAmbiguousInnerProtectedCallBeforeMarker lines markerInfo.markerLine
        protectedCallInfos protectedFunctions then
      .ok text
    else
      match getProcessingStartLine pfile markerInfo.markerOffset protectedFunctions with
      | none => .ok text
      | some processingStartLine =>
        .ok (joinLines (detectEol text)
          (transformLines markerInfo.mode
            (pipelineProtected pfile protectedFunctions functionAllowlist lines)
            processingStartLine markerInfo.markerLine lines))

/-- `computeTransformedText`: the default-configuration entry point. -/
def computeTransformedText (parse : Str → ParsedFile) (text : Str) :
    Except MarkerError Str :=
  computeTransformedTextWithConfig parse emptyPartialConfig text

/-! ### Concrete inputs used by the theorems

The braces of the sample sources are written with `\x7b`/`\x7d` escapes and
the string arguments are simplified to bare words; neither affects any
function of the processor. -/

/-- The input of the repository test "keeps allowlisted function-call
declarations protected". -/
def allowlistDemoLines : List Str :=
  ["describe(x, async function()\x7b".toList,
   "  test(a, async function()\x7b".toList,
   "    const number = 0;".toList,
   "    const element = await findElementByText(Hello);".toList,
   "    const element2 = await SomeClass.findElementByText(Hello);".toList,
   "    const wowClass = new SomeClass();".toList,
   "    const element3 = await wowClass.findElementByText(Hello);".toList,
   "    const other = await anotherFinder(x);".toList,
   "    //@debug".toList,
   "  \x7d)".toList,
   "\x7d)".toList]

/-- `allowlistDemoLines` joined with `"\n"`. -/
def allowlistDemoText : Str := joinLines ['\n'] allowlistDemoLines

/-- The ts-morph structural facts for `allowlistDemoText` (1-based lines):
the `describe` and `test` calls with their callback blocks, the plain call
expressions inside the initializers (callee identifier only for direct
calls), the six variable statements with their initializer shapes, and the
marker node's ancestor chain — nearest first: the `test` body block, its
function expression, the `test` call, its expression statement, then the
same four levels for `describe`. -/
def allowlistDemoParsedFile : ParsedFile :=
  ⟨[⟨some "describe".toList, 1, 11,
      [⟨ArgKind.otherArg, none⟩, ⟨ArgKind.functionExpr, some (1, 11)⟩]⟩,
    ⟨some "test".toList, 2, 10,
      [⟨ArgKind.otherArg, none⟩, ⟨ArgKind.functionExpr, some (2, 10)⟩]⟩,
    ⟨some "findElementByText".toList, 4, 4, [⟨ArgKind.otherArg, none⟩]⟩,
    ⟨none, 5, 5, [⟨ArgKind.otherArg, none⟩]⟩,
    ⟨some "SomeClass".toList, 6, 6, []⟩,
    ⟨none, 7, 7, [⟨ArgKind.otherArg, none⟩]⟩,
    ⟨none, 8, 8, [⟨ArgKind.otherArg, none⟩]⟩],
   [⟨3, 3, [⟨some Expr.otherExpr⟩]⟩,
    ⟨4, 4, [⟨some (Expr.awaitE (Expr.call (Expr.ident "findElementByText".toList)))⟩]⟩,
    ⟨5, 5, [⟨some (Expr.awaitE (Expr.call
      (Expr.propAccess (Expr.ident "SomeClass".toList) "findElementByText".toList)))⟩]⟩,
    ⟨6, 6, [⟨some (Expr.awaitE Expr.otherExpr)⟩]⟩,
    ⟨7, 7, [⟨some (Expr.awaitE (Expr.call
      (Expr.propAccess (Expr.ident "wowClass".toList) "findElementByText".toList)))⟩]⟩,
    ⟨8, 8, [⟨some (Expr.awaitE (Expr.call (Expr.ident "anotherFinder".toList)))⟩]⟩],
   fun _ => some
     [⟨true, true, some "test".toList, 2⟩,
      ⟨false, false, none, 2⟩,
      ⟨false, false, none, 2⟩,
      ⟨false, false, none, 2⟩,
      ⟨true, true, some "describe".toList, 1⟩,
      ⟨false, false, none, 1⟩,
      ⟨false, false, none, 1⟩,
      ⟨false, false, none, 1⟩]⟩

/-- The expected output: only the non-allow-listed declaration line gains a
comment prefix. -/
def allowlistDemoExpected : Str :=
  joinLines ['\n']
    ["describe(x, async function()\x7b".toList,
     "  test(a, async function()\x7b".toList,
     "    const number = 0;".toList,
     "    const element = await findElementByText(Hello);".toList,
     "    const element2 = await SomeClass.findElementByText(Hello);".toList,
     "    const wowClass = new SomeClass();".toList,
     "    const element3 = await wowClass.findElementByText(Hello);".toList,
     "    //const other = await anotherFinder(x);".toList,
     "    //@debug".toList,
     "  \x7d)".toList,
     "\x7d)".toList]

/-- A well-formed input whose terminators mix `\r\n` (after the first line)
and `\n` (all later lines), with nothing to rewrite in the marker's window
(its only window line is empty). -/
def mixedEolText : Str :=
  "describe(x, function()\x7b\r\n\n//@debug\n\x7d)".toList

/-- The ts-morph structural facts for `mixedEolText`: one `describe` call
spanning the whole file with its callback block, and the marker node's
ancestors — the `describe` body block, its function expression, the call
and its statement. -/
def mixedEolParsedFile : ParsedFile :=
  ⟨[⟨some "describe".toList, 1, 4,
      [⟨ArgKind.otherArg, none⟩, ⟨ArgKind.functionExpr, some (1, 4)⟩]⟩],
   [],
   fun _ => some
     [⟨true, true, some "describe".toList, 1⟩,
      ⟨false, false, none, 1⟩,
      ⟨false, false, none, 1⟩,
      ⟨false, false, none, 1⟩]⟩

/-- `mixedEolText` with every terminator normalized to `\r\n`. -/
def mixedEolExpected : Str :=
  "describe(x, function()\x7b\r\n\r\n//@debug\r\n\x7d)".toList

/-- A malformed input for the ambiguity guard: the only protected-call
looking line above the marker is line 0, and the parser found no call
starting there. -/
def malformedGuardText : Str := "before(x)\n//@debug".toList

end MochaDebug

namespace MochaDebug

theorem taggedIdx_length_eq_countP (tag : Str) (ls : List Str) :
    ∀ i0, (taggedIdx tag i0 ls).length = ls.countP (fun l => trim l == tag) := by
  induction ls with
  | nil => intro i0; simp [taggedIdx]
  | cons l ls ih =>
    intro i0
    by_cases h : (trim l == tag) = true
    · simp [taggedIdx, h, List.countP_cons, ih]
    · simp [taggedIdx, h, List.countP_cons, ih]

theorem taggedIdx_eq_nil_iff (tag : Str) (ls : List Str) :
    ∀ i0, taggedIdx tag i0 ls = [] ↔ ∀ l ∈ ls, (trim l == tag) = false := by
  induction ls with
  | nil => intro i0; simp [taggedIdx]
  | cons l ls ih =>
    intro i0
    by_cases h : (trim l == tag) = true
    · constructor
      · intro hnil
        simp [taggedIdx, h] at hnil
      · intro hall
        have hl := hall l (List.mem_cons_self l ls)
        rw [hl] at h
        cases h
    · simp only [taggedIdx, h, if_neg, Bool.false_eq_true, ite_false, List.mem_cons]
      rw [ih (i0 + 1)]
      constructor
      · intro hall a ha
        rcases ha with rfl | ha
        · simpa using h
        · exact hall a ha
      · intro hall a ha
        exact hall a (Or.inr ha)

theorem takeWhile_append_cons (p : Char → Bool) (ws : Str) (c : Char) (t : Str)
    (hws : ws.all p = true) (hc : p c = false) :
    (ws ++ c :: t).takeWhile p = ws ∧ (ws ++ c :: t).dropWhile p = c :: t := by
  induction ws with
  | nil => simp [List.takeWhile, List.dropWhile, hc]
  | cons w ws ih =>
    simp only [List.all_cons, Bool.and_eq_true] at hws
    have := ih hws.2
    simp [List.takeWhile, List.dropWhile, hws.1, this.1, this.2]

theorem all_isWS_takeWhile (p : Char → Bool) (l : Str) :
    (l.takeWhile p).all p = true := by
  induction l with
  | nil => simp
  | cons c t ih =>
    by_cases h : p c = true
    · simp [List.takeWhile, h, ih]
    · simp [List.takeWhile, h]

theorem dropWhile_eq_nil_iff_all (p : Char → Bool) (l : Str) :
    l.dropWhile p = [] ↔ l.all p = true := by
  induction l with
  | nil => simp
  | cons c t ih =>
    by_cases h : p c = true
    · simp [List.dropWhile, h, ih]
    · simp [List.dropWhile, h]

theorem all_dropWhile_iff (p : Char → Bool) (l : Str) :
    (l.dropWhile p).all p = true ↔ l.all p = true := by
  induction l with
  | nil => simp
  | cons c t ih =>
    by_cases h : p c = true
    · simp [List.dropWhile, h, ih]
    · simp [List.dropWhile, h]

theorem trim_eq_nil_iff (l : Str) : trim l = [] ↔ l.all isWS = true := by
  unfold trim
  rw [List.reverse_eq_nil_iff, dropWhile_eq_nil_iff_all, List.all_reverse,
    all_dropWhile_iff]

theorem trim_isEmpty_false_of_not_all (l : Str) (h : l.all isWS = false) :
    (trim l).isEmpty = false := by
  cases he : (trim l).isEmpty with
  | false => rfl
  | true =>
    rw [List.isEmpty_iff, trim_eq_nil_iff] at he
    rw [he] at h
    cases h

/-- C6: the transform fails with the per-kind MultipleMarkers error when
more than one debug-tag line (respectively, with the multiplicity checks
passed, more than one undebug-tag line) exists, and fails with the
ConflictingMarkers error when one debug and one undebug marker coexist;
the multiplicity checks run first, so two debug markers plus one undebug
marker report the debug multiplicity error. -/
theorem marker_cardinality_errors (text : Str) :
    ((splitLines text).countP (fun l => trim l == DEBUG_TAG) > 1 →
      getMarkerInfo text = .error .multipleDebugTags) ∧
    ((splitLines text).countP (fun l => trim l == DEBUG_TAG) ≤ 1 →
      (splitLines text).countP (fun l => trim l == UNDEBUG_TAG) > 1 →
      getMarkerInfo text = .error .multipleUndebugTags) ∧
    ((splitLines text).countP (fun l => trim l == DEBUG_TAG) = 1 →
      (splitLines text).countP (fun l => trim l == UNDEBUG_TAG) = 1 →
      getMarkerInfo text = .error .conflictingTags) := by
  have hd := taggedIdx_length_eq_countP DEBUG_TAG (splitLines text) 0
  have hu := taggedIdx_length_eq_countP UNDEBUG_TAG (splitLines text) 0
  unfold getMarkerInfo
  refine ⟨fun h1 => ?_, fun h1 h2 => ?_, fun h1 h2 => ?_⟩
  · rw [if_pos (by omega)]
  · rw [if_neg (by omega), if_pos (by omega)]
  · rw [if_neg (by omega), if_neg (by omega), if_pos (by simp only [hd, hu, h1, h2]; decide)]

/-- Witness for `marker_cardinality_errors`: a file with two debug markers
and one undebug marker reports the debug multiplicity error, a file with
one debug and two undebug markers reports the undebug multiplicity error,
and a file with one marker of each kind reports the conflict error. -/
theorem marker_cardinality_errors_witness :
    getMarkerInfo "//@debug\n//@debug\n//@undebug".toList = .error .multipleDebugTags ∧
    getMarkerInfo "//@debug\n//@undebug\n//@undebug".toList = .error .multipleUndebugTags ∧
    getMarkerInfo "//@debug\n//@undebug".toList = .error .conflictingTags :=
  ⟨(marker_cardinality_errors "//@debug\n//@debug\n//@undebug".toList).1 (by decide),
   (marker_cardinality_errors "//@debug\n//@undebug\n//@undebug".toList).2.1 (by decide) (by decide),
   (marker_cardinality_errors "//@debug\n//@undebug".toList).2.2 (by decide) (by decide)⟩

theorem lineEligible_nil (prot : Nat → Bool) (startLine markerLine j : Nat) :
    lineEligible prot startLine markerLine j [] = false := by
  simp [lineEligible, trim]

theorem transformLinesFrom_getD (mode : Mode) (prot : Nat → Bool)
    (startLine markerLine : Nat) (ls : List Str) :
    ∀ i0 i, (transformLinesFrom mode prot startLine markerLine i0 ls).getD i [] =
      if lineEligible prot startLine markerLine (i0 + i) (ls.getD i []) = true
      then rewriteLine mode (ls.getD i []) else ls.getD i [] := by
  induction ls with
  | nil =>
    intro i0 i
    simp [transformLinesFrom, lineEligible_nil]
  | cons l ls ih =>
    intro i0 i
    cases i with
    | zero => simp [transformLinesFrom]
    | succ i =>
      have := ih (i0 + 1) i
      simp only [transformLinesFrom, List.getD_cons_succ]
      rw [this]
      have harith : i0 + 1 + i = i0 + (i + 1) := by omega
      rw [harith]

theorem transformLines_getD (mode : Mode) (prot : Nat → Bool)
    (startLine markerLine i : Nat) (lines : List Str) :
    (transformLines mode prot startLine markerLine lines).getD i [] =
      if lineEligible prot startLine markerLine i (lines.getD i []) = true
      then rewriteLine mode (lines.getD i []) else lines.getD i [] := by
  have := transformLinesFrom_getD mode prot startLine markerLine lines 0 i
  simpa [transformLines] using this

theorem isWS_slash_false : isWS '/' = false := by decide

theorem rewriteLine_debug_eq (line : Str) :
    rewriteLine Mode.debug line =
      line.takeWhile isWS ++ '/' :: '/' :: line.dropWhile isWS := rfl

theorem rewriteLine_undebug_eq (line : Str) :
    rewriteLine Mode.undebug line =
      if (['/', '/'].isPrefixOf (line.dropWhile isWS) &&
          ((line.dropWhile isWS).drop 2).all isJsDot) = true
      then line.takeWhile isWS ++ (line.dropWhile isWS).drop 2
      else line := rfl

theorem lineEligible_true (prot : Nat → Bool) (startLine markerLine i : Nat)
    (line : Str) (hw : startLine ≤ i) (hm : i < markerLine)
    (hp : prot i = false) (hne : (trim line).isEmpty = false) :
    lineEligible prot startLine markerLine i line = true := by
  unfold lineEligible
  rw [hp, hne]
  simp [hw, hm]

theorem lineEligible_false_of_prot (prot : Nat → Bool)
    (startLine markerLine i : Nat) (line : Str) (hp : prot i = true) :
    lineEligible prot startLine markerLine i line = false := by
  unfold lineEligible
  rw [hp]
  simp

/-- Splitting the debug-rewritten line at its whitespace prefix gives back
the original whitespace and `//` followed by the original remainder. -/
theorem debug_line_split (line : Str) :
    (rewriteLine Mode.debug line).takeWhile isWS = line.takeWhile isWS ∧
    (rewriteLine Mode.debug line).dropWhile isWS =
      '/' :: '/' :: line.dropWhile isWS := by
  rw [rewriteLine_debug_eq]
  exact takeWhile_append_cons isWS (line.takeWhile isWS) '/'
    ('/' :: line.dropWhile isWS) (all_isWS_takeWhile isWS line) isWS_slash_false

/-- The debug-rewritten line is never empty nor whitespace-only. -/
theorem trim_debug_not_empty (line : Str) :
    (trim (rewriteLine Mode.debug line)).isEmpty = false := by
  apply trim_isEmpty_false_of_not_all
  rw [rewriteLine_debug_eq]
  simp [List.all_append, isWS_slash_false]

/-- Per-line round trip: when the remainder contains only characters the
JS dot can match, undebug undoes debug exactly. -/
theorem rewriteLine_undebug_debug (line : Str)
    (hdot : (line.dropWhile isWS).all isJsDot = true) :
    rewriteLine Mode.undebug (rewriteLine Mode.debug line) = line := by
  have hsplit := debug_line_split line
  rw [rewriteLine_undebug_eq, hsplit.1, hsplit.2]
  have hcond : (['/', '/'].isPrefixOf ('/' :: '/' :: line.dropWhile isWS) &&
      (('/' :: '/' :: line.dropWhile isWS).drop 2).all isJsDot) = true := by
    simp [List.isPrefixOf, hdot]
  rw [if_pos hcond]
  simp [List.takeWhile_append_dropWhile]

/-- C1 (amended): for an eligible line whose post-indentation remainder
contains no line-terminator character (no bare carriage return, no
U+2028/U+2029), one debug pass followed by one undebug pass over the same
window and protected set restores the line byte-for-byte. -/
theorem debug_undebug_roundtrip (lines : List Str) (prot : Nat → Bool)
    (startLine markerLine i : Nat)
    (hw : startLine ≤ i) (hm : i < markerLine) (hp : prot i = false)
    (hne : (trim (lines.getD i [])).isEmpty = false)
    (hdot : ((lines.getD i []).dropWhile isWS).all isJsDot = true) :
    (transformLines Mode.undebug prot startLine markerLine
        (transformLines Mode.debug prot startLine markerLine lines)).getD i [] =
      lines.getD i [] := by
  have helig := lineEligible_true prot startLine markerLine i (lines.getD i [])
    hw hm hp hne
  have h1 : (transformLines Mode.debug prot startLine markerLine lines).getD i [] =
      rewriteLine Mode.debug (lines.getD i []) := by
    rw [transformLines_getD, if_pos helig]
  have helig2 := lineEligible_true prot startLine markerLine i
    (rewriteLine Mode.debug (lines.getD i [])) hw hm hp
    (trim_debug_not_empty (lines.getD i []))
  rw [transformLines_getD, h1, if_pos helig2]
  exact rewriteLine_undebug_debug (lines.getD i []) hdot

/-- C1 counterexample: the round trip is not byte-for-byte for every
eligible line.  The single-line window `a\rb` (a bare carriage return in
the content) is eligible — in-window, unprotected, non-empty — yet debug
turns it into `//a\rb` and undebug leaves that untouched, because the JS
regex `/^(\s*)\/\/(.*)$/` cannot match across the bare `\r`. -/
theorem debug_undebug_roundtrip_counterexample :
    (0 : Nat) ≤ 0 ∧ (0 : Nat) < 1 ∧ (fun _ : Nat => false) 0 = false ∧
    (trim ['a', '\r', 'b']).isEmpty = false ∧
    (transformLines Mode.undebug (fun _ => false) 0 1
        (transformLines Mode.debug (fun _ => false) 0 1 [['a', '\r', 'b']])).getD 0 [] ≠
      ['a', '\r', 'b'] := by
  decide

/-- C5 counterexample: a non-allow-listed variable declaration line is not
in the protected set and is mutated by the rewrite loop.  With
`functionAllowlist = ["f"]`, the single-line statement `const y = g();` —
a variable declaration whose initializer call resolves to the
non-allow-listed name `g`, as the first two conjuncts state — sits inside
the window, yet debug mode rewrites it, contradicting the claim that such
lines are output unchanged. -/
theorem protected_lines_counterexample :
    getCallName (Expr.call (Expr.ident "g".toList)) = some "g".toList ∧
    (["f".toList] : List Str).contains "g".toList = false ∧
    pipelineProtected ⟨[], [⟨1, 1, [⟨some (Expr.call (Expr.ident "g".toList))⟩]⟩], fun _ => none⟩
      DEFAULT_PROTECTED_FUNCTIONS ["f".toList] ["const y = g();".toList] 0 = false ∧
    (transformLines Mode.debug
        (pipelineProtected ⟨[], [⟨1, 1, [⟨some (Expr.call (Expr.ident "g".toList))⟩]⟩], fun _ => none⟩
          DEFAULT_PROTECTED_FUNCTIONS ["f".toList] ["const y = g();".toList])
        0 1 ["const y = g();".toList]).getD 0 [] ≠ "const y = g();".toList := by
  decide

/-- C5 (amended): every line of the protected-line set — protected-call
header lines from the call's start line through the callback body's
opening line, closer lines from the body's closing line through the call's
end line, whole bodiless call spans, lines of variable declaration
statements whose every resolvable call-initializer is allow-listed
(declarations with no initializer or a non-call initializer included), and
lines matching the protected-call textual fallback pattern — is output
unchanged by the rewrite loop in both modes, wherever it sits relative to
the window. -/
theorem protected_lines_never_rewritten (pfile : ParsedFile)
    (protectedFunctions functionAllowlist : List Str) (lines : List Str)
    (mode : Mode) (startLine markerLine n : Nat)
    (hp : pipelineProtected pfile protectedFunctions functionAllowlist lines n = true) :
    (transformLines mode
        (pipelineProtected pfile protectedFunctions functionAllowlist lines)
        startLine markerLine lines).getD n [] = lines.getD n [] := by
  rw [transformLines_getD, if_neg]
  rw [lineEligible_false_of_prot _ _ _ _ _ hp]
  simp

/-- Witness for `protected_lines_never_rewritten`: a variable-statement
line protected by the structural classifier (empty allowlist) survives a
debug pass over a window containing it. -/
theorem protected_lines_never_rewritten_witness :
    pipelineProtected ⟨[], [⟨1, 1, [⟨some Expr.otherExpr⟩]⟩], fun _ => none⟩
        DEFAULT_PROTECTED_FUNCTIONS [] ["const x = 0;".toList] 0 = true ∧
    (transformLines Mode.debug
        (pipelineProtected ⟨[], [⟨1, 1, [⟨some Expr.otherExpr⟩]⟩], fun _ => none⟩
          DEFAULT_PROTECTED_FUNCTIONS [] ["const x = 0;".toList])
        0 1 ["const x = 0;".toList]).getD 0 [] = "const x = 0;".toList :=
  ⟨by decide,
   protected_lines_never_rewritten
     ⟨[], [⟨1, 1, [⟨some Expr.otherExpr⟩]⟩], fun _ => none⟩
     DEFAULT_PROTECTED_FUNCTIONS [] ["const x = 0;".toList] Mode.debug 0 1 0 (by decide)⟩

/-- C8: the debug-mode rewrite of an eligible line splits it into leading
whitespace and remainder and prepends exactly two slashes before the
remainder — indentation preserved exactly, no space inserted — and does so
regardless of whether the remainder already begins with `//` (such a line
gains a `////` prefix after its indentation). -/
theorem debug_mode_per_line_rule (lines : List Str) (prot : Nat → Bool)
    (startLine markerLine i : Nat)
    (hw : startLine ≤ i) (hm : i < markerLine) (hp : prot i = false)
    (hne : (trim (lines.getD i [])).isEmpty = false) :
    (transformLines Mode.debug prot startLine markerLine lines).getD i [] =
      (lines.getD i []).takeWhile isWS ++ '/' :: '/' :: (lines.getD i []).dropWhile isWS ∧
    ((transformLines Mode.debug prot startLine markerLine lines).getD i []).takeWhile isWS =
      (lines.getD i []).takeWhile isWS ∧
    (['/', '/'].isPrefixOf ((lines.getD i []).dropWhile isWS) = true →
      ['/', '/', '/', '/'].isPrefixOf
        (((transformLines Mode.debug prot startLine markerLine lines).getD i []).dropWhile isWS) = true) := by
  have helig := lineEligible_true prot startLine markerLine i (lines.getD i [])
    hw hm hp hne
  have h1 : (transformLines Mode.debug prot startLine markerLine lines).getD i [] =
      rewriteLine Mode.debug (lines.getD i []) := by
    rw [transformLines_getD, if_pos helig]
  have hsplit := debug_line_split (lines.getD i [])
  refine ⟨by rw [h1, rewriteLine_debug_eq], by rw [h1, hsplit.1], ?_⟩
  intro hpre
  rw [h1, hsplit.2]
  rcases List.isPrefixOf_iff_prefix.mp hpre with ⟨t, ht⟩
  rw [← ht]
  simp [List.isPrefixOf_iff_prefix]

/-- Witness for `debug_mode_per_line_rule`: the already-commented line
`  //x` is eligible and becomes `  ////x`. -/
theorem debug_mode_per_line_rule_witness :
    (transformLines Mode.debug (fun _ => false) 0 1 ["  //x".toList]).getD 0 [] =
      "  ////x".toList :=
  ((debug_mode_per_line_rule ["  //x".toList] (fun _ => false) 0 1 0
      (by decide) (by decide) (by decide) (by decide)).1).trans (by decide)

/-- Witness for `debug_undebug_roundtrip`: an ordinary indented statement
line survives the debug-undebug round trip byte-for-byte. -/
theorem debug_undebug_roundtrip_witness :
    (transformLines Mode.undebug (fun _ => false) 0 1
        (transformLines Mode.debug (fun _ => false) 0 1
          ["  console.log(1);".toList])).getD 0 [] = "  console.log(1);".toList :=
  debug_undebug_roundtrip ["  console.log(1);".toList] (fun _ => false) 0 1 0
    (by decide) (by decide) (by decide) (by decide) (by decide)

/-- C9 (amended): an eligible line whose remainder does not begin with
`//` is left untouched; one whose remainder begins with `//` and contains
no line-terminator character after the two slashes loses exactly those two
slashes with indentation kept; one whose remainder begins with `//` but
contains a bare carriage return (or U+2028/U+2029) after them is also left
untouched, because the regex cannot match it.  In particular
`    ////console.log(1)` becomes `    //console.log(1)` and
`    //console.log(2)` becomes `    console.log(2)`. -/
theorem undebug_mode_per_line_rule (line : Str) :
    (['/', '/'].isPrefixOf (line.dropWhile isWS) = false →
      rewriteLine Mode.undebug line = line) ∧
    (['/', '/'].isPrefixOf (line.dropWhile isWS) = true →
      ((line.dropWhile isWS).drop 2).all isJsDot = true →
      rewriteLine Mode.undebug line =
        line.takeWhile isWS ++ (line.dropWhile isWS).drop 2) ∧
    (['/', '/'].isPrefixOf (line.dropWhile isWS) = true →
      ((line.dropWhile isWS).drop 2).all isJsDot = false →
      rewriteLine Mode.undebug line = line) ∧
    rewriteLine Mode.undebug "    ////console.log(1)".toList =
      "    //console.log(1)".toList ∧
    rewriteLine Mode.undebug "    //console.log(2)".toList =
      "    console.log(2)".toList := by
  refine ⟨fun h => ?_, fun h1 h2 => ?_, fun h1 h2 => ?_, by decide, by decide⟩
  · rw [rewriteLine_undebug_eq, if_neg]
    simp [h]
  · rw [rewriteLine_undebug_eq, if_pos]
    simp [h1, h2]
  · rw [rewriteLine_undebug_eq, if_neg]
    simp [h1, h2]

/-- Witness for `undebug_mode_per_line_rule`: an uncommented line is left
untouched by the undebug rule, and a commented one loses its first two
slashes. -/
theorem undebug_mode_per_line_rule_witness :
    rewriteLine Mode.undebug "  x".toList = "  x".toList ∧
    rewriteLine Mode.undebug "  //x".toList =
      ("  //x".toList.takeWhile isWS ++ ("  //x".toList.dropWhile isWS).drop 2) :=
  ⟨(undebug_mode_per_line_rule "  x".toList).1 (by decide),
   (undebug_mode_per_line_rule "  //x".toList).2.1 (by decide) (by decide)⟩

/-- C9 counterexample: the line `//a<CR>b` — its remainder begins with
exactly `//` — is not stripped by the undebug rule but left untouched: the
regex `/^(\s*)\/\/(.*)$/` fails because `.` cannot match the bare carriage
return, so the claim's "only the first two slash characters are stripped"
does not hold for it. -/
theorem undebug_mode_per_line_rule_counterexample :
    ['/', '/'].isPrefixOf ((['/', '/', 'a', '\r', 'b'] : Str).dropWhile isWS) = true ∧
    rewriteLine Mode.undebug ['/', '/', 'a', '\r', 'b'] = ['/', '/', 'a', '\r', 'b'] ∧
    rewriteLine Mode.undebug ['/', '/', 'a', '\r', 'b'] ≠
      (['/', '/', 'a', '\r', 'b'] : Str).takeWhile isWS ++
        ((['/', '/', 'a', '\r', 'b'] : Str).dropWhile isWS).drop 2 := by
  decide

/-- C2 counterexample: take `functionAllowlist = ["f"]` and the statement
`const x = f()` — a single declaration whose initializer is a call
resolving to the allow-listed name `f`, as the first conjunct states.  The
claim says such a statement is left unprotected (commentable), but
`shouldProtectVariableStatement` returns `true`: it is exactly the
all-allow-listed statements that stay protected. -/
theorem variable_allowlist_counterexample :
    (([⟨some (Expr.call (Expr.ident "f".toList))⟩] : List VariableDeclaration).all
      (fun d =>
        match d.initializer with
        | some init =>
          match getCallName init with
          | some name => (["f".toList] : List Str).contains name
          | none => false
        | none => false) = true) ∧
    shouldProtectVariableStatement ⟨1, 1, [⟨some (Expr.call (Expr.ident "f".toList))⟩]⟩
      ["f".toList] = true := by
  decide

/-- C2 (amended): the structural classifier protects a variable statement
if and only if every declared variable whose initializer is a call with a
resolvable bare function or method name calls an allow-listed name
(declarations without initializers, or with non-call or unresolvable
initializers, never disqualify); otherwise — some resolvable
call-initializer is not allow-listed — the statement is unprotected and
therefore commentable. -/
theorem variable_statement_protection (node : VariableStatementNode)
    (functionAllowlist : List Str) :
    shouldProtectVariableStatement node functionAllowlist = true ↔
      ∀ d ∈ node.declarations, ∀ init, d.initializer = some init →
        ∀ name, getCallName init = some name →
          functionAllowlist.contains name = true := by
  unfold shouldProtectVariableStatement
  by_cases hemp : node.declarations.isEmpty = true
  · rw [if_pos hemp]
    rw [List.isEmpty_iff] at hemp
    simp [hemp]
  · rw [if_neg hemp, List.all_eq_true]
    constructor
    · intro h d hd init hinit name hname
      have hp := h d hd
      rw [hinit] at hp
      simp only at hp
      rw [hname] at hp
      exact hp
    · intro h d hd
      cases hinit : d.initializer with
      | none => simp
      | some init =>
        simp only
        cases hname : getCallName init with
        | none => simp
        | some name => exact h d hd init hinit name hname

/-- Witness for `variable_statement_protection`: a statement with no
declarations is protected. -/
theorem variable_statement_protection_witness :
    shouldProtectVariableStatement ⟨1, 1, []⟩ [] = true :=
  (variable_statement_protection ⟨1, 1, []⟩ []).mpr (by
    intro d hd
    simp at hd)

/-- C3: with `functionAllowlist = ["findElementByText"]`, a debug pass over
the allowlist demo file leaves the declarations whose initializer call
resolves to the allow-listed name — direct, static and instance call forms
— unchanged, and gives the non-allow-listed `anotherFinder` declaration a
`//` prefix. -/
theorem allowlist_protection_demo :
    computeTransformedTextWithConfig (fun _ => allowlistDemoParsedFile)
        ⟨none, some ["findElementByText".toList]⟩ allowlistDemoText =
      .ok allowlistDemoExpected ∧
    (splitLines allowlistDemoExpected).getD 3 [] =
      "    const element = await findElementByText(Hello);".toList ∧
    (splitLines allowlistDemoExpected).getD 4 [] =
      "    const element2 = await SomeClass.findElementByText(Hello);".toList ∧
    (splitLines allowlistDemoExpected).getD 6 [] =
      "    const element3 = await wowClass.findElementByText(Hello);".toList ∧
    (splitLines allowlistDemoExpected).getD 7 [] =
      "    //const other = await anotherFinder(x);".toList :=
  ⟨rfl, by decide, by decide, by decide, by decide⟩

theorem hasAmbigScan_true_from (lines : List Str) (markerLine : Nat)
    (infos : List ProtectedCallInfo) (pf : List Str) (i : Nat)
    (hmatch : patLineTest pf (lines.getD i []) = true)
    (hnone : findCallInfoAtLine infos i = none) :
    ∀ k, (∀ j, i < j → j < i + 1 + k → patLineTest pf (lines.getD j []) = false) →
      hasAmbigScan lines markerLine infos pf (i + 1 + k) = true := by
  intro k
  induction k with
  | zero =>
    intro _
    show hasAmbigScan lines markerLine infos pf (i + 1) = true
    unfold hasAmbigScan
    rw [hmatch, hnone]
    rfl
  | succ k ih =>
    intro hfirst
    have hskip : patLineTest pf (lines.getD (i + 1 + k) []) = false :=
      hfirst (i + 1 + k) (by omega) (by omega)
    have harith : i + 1 + (k + 1) = (i + 1 + k) + 1 := by omega
    rw [harith]
    show hasAmbigScan lines markerLine infos pf ((i + 1 + k) + 1) = true
    unfold hasAmbigScan
    rw [hskip]
    exact ih (fun j h1 h2 => hfirst j h1 (by omega))

/-- C4: when, scanning backward from the line above the marker, the first
line matching the protected-call textual pattern has no structurally
detected call starting at exactly that line, the ambiguity guard trips and
the transform returns the input text completely unchanged. -/
theorem malformed_structure_guard (parse : Str → ParsedFile)
    (config : PartialConfig) (text : Str) (mi : MarkerInfo) (i : Nat)
    (hm : getMarkerInfo text = .ok (some mi))
    (hpf : (normalizeConfig config).protectedFunctions.isEmpty = false)
    (hi : i < mi.markerLine)
    (hmatch : patLineTest (normalizeConfig config).protectedFunctions
      ((splitLines text).getD i []) = true)
    (hfirst : ∀ j, i < j → j < mi.markerLine →
      patLineTest (normalizeConfig config).protectedFunctions
        ((splitLines text).getD j []) = false)
    (hnone : findCallInfoAtLine
      (getProtectedCallInfos (parse (parseTextFor mi.mode text)).calls
        (normalizeConfig config).protectedFunctions) i = none) :
    computeTransformedTextWithConfig parse config text = .ok text := by
  have hguard : hasAmbiguousInnerProtectedCallBeforeMarker (splitLines text)
      mi.markerLine
      (getProtectedCallInfos (parse (parseTextFor mi.mode text)).calls
        (normalizeConfig config).protectedFunctions)
      (normalizeConfig config).protectedFunctions = true := by
    unfold hasAmbiguousInnerProtectedCallBeforeMarker
    rw [hpf]
    have hk := hasAmbigScan_true_from (splitLines text) mi.markerLine
      (getProtectedCallInfos (parse (parseTextFor mi.mode text)).calls
        (normalizeConfig config).protectedFunctions)
      (normalizeConfig config).protectedFunctions i hmatch hnone
      (mi.markerLine - i - 1)
      (fun j h1 h2 => hfirst j h1 (by omega))
    have harith : i + 1 + (mi.markerLine - i - 1) = mi.markerLine := by omega
    rw [harith] at hk
    simpa using hk
  unfold computeTransformedTextWithConfig
  rw [hm]
  dsimp only
  rw [hguard]
  rfl

/-- Witness for `malformed_structure_guard`: the file `before(x)` followed
by `//@debug` with a parser that found no call node — the transform
returns the text unchanged. -/
theorem malformed_structure_guard_witness :
    computeTransformedTextWithConfig (fun _ => emptyParsedFile)
      emptyPartialConfig malformedGuardText = .ok malformedGuardText :=
  malformed_structure_guard (fun _ => emptyParsedFile) emptyPartialConfig
    malformedGuardText ⟨Mode.debug, 1, 10⟩ 0 rfl (by decide) (by decide)
    (by decide) (fun j h1 h2 => by
      have h2' : j < 1 := h2
      omega) rfl

/-- C7: the transform returns the original text unchanged and raises no
error (a) whenever no line of the text has trimmed content equal to a
marker tag, and (b) whenever a marker exists but none of the ancestors the
parser resolves at (or just before) the marker offset is a protected
callback block — scope resolution failure. -/
theorem transform_noop_outcomes (parse : Str → ParsedFile)
    (config : PartialConfig) (text : Str) :
    ((∀ l ∈ splitLines text, (trim l == DEBUG_TAG) = false ∧
        (trim l == UNDEBUG_TAG) = false) →
      computeTransformedTextWithConfig parse config text = .ok text) ∧
    (∀ mi, getMarkerInfo text = .ok (some mi) →
      (∀ ancestors,
          ((parse (parseTextFor mi.mode text)).descendantAncestors mi.markerOffset =
              some ancestors ∨
            (parse (parseTextFor mi.mode text)).descendantAncestors
              (mi.markerOffset - 1) = some ancestors) →
        ∀ a ∈ ancestors,
          isProtectedCallbackBlock a (normalizeConfig config).protectedFunctions = false) →
      computeTransformedTextWithConfig parse config text = .ok text) := by
  constructor
  · intro h
    have hd : taggedIdx DEBUG_TAG 0 (splitLines text) = [] :=
      (taggedIdx_eq_nil_iff DEBUG_TAG (splitLines text) 0).mpr (fun l hl => (h l hl).1)
    have hu : taggedIdx UNDEBUG_TAG 0 (splitLines text) = [] :=
      (taggedIdx_eq_nil_iff UNDEBUG_TAG (splitLines text) 0).mpr (fun l hl => (h l hl).2)
    have hmarker : getMarkerInfo text = .ok none := by
      simp only [getMarkerInfo, hd, hu]
      rfl
    unfold computeTransformedTextWithConfig
    rw [hmarker]
  · intro mi hm hanc
    have hscope : getProcessingStartLine (parse (parseTextFor mi.mode text))
        mi.markerOffset (normalizeConfig config).protectedFunctions = none := by
      unfold getProcessingStartLine
      cases h1 : (parse (parseTextFor mi.mode text)).descendantAncestors mi.markerOffset with
      | some ancestors =>
        have hfilter : ancestors.filter
            (fun a => a.isBlock &&
              isProtectedCallbackBlock a (normalizeConfig config).protectedFunctions) = [] := by
          rw [List.filter_eq_nil_iff]
          intro a ha
          rw [hanc ancestors (Or.inl h1) a ha]
          simp
        dsimp only
        rw [hfilter]
      | none =>
        cases h2 : (parse (parseTextFor mi.mode text)).descendantAncestors
            (mi.markerOffset - 1) with
        | some ancestors =>
          have hfilter : ancestors.filter
              (fun a => a.isBlock &&
                isProtectedCallbackBlock a (normalizeConfig config).protectedFunctions) = [] := by
            rw [List.filter_eq_nil_iff]
            intro a ha
            rw [hanc ancestors (Or.inr h2) a ha]
            simp
          dsimp only
          rw [hfilter]
        | none => rfl
    unfold computeTransformedTextWithConfig
    rw [hm]
    dsimp only
    cases hg : hasAmbiguousInnerProtectedCallBeforeMarker (splitLines text)
        mi.markerLine
        (getProtectedCallInfos (parse (parseTextFor mi.mode text)).calls
          (normalizeConfig config).protectedFunctions)
        (normalizeConfig config).protectedFunctions with
    | true => rfl
    | false =>
      rw [if_neg Bool.false_ne_true, hscope]

/-- Witness for `transform_noop_outcomes`: a marker-free file is returned
unchanged, and a file that is only a marker (no surrounding structure, so
no ancestors resolve) is returned unchanged. -/
theorem transform_noop_outcomes_witness :
    computeTransformedTextWithConfig (fun _ => emptyParsedFile)
      emptyPartialConfig "const x = 1;".toList = .ok "const x = 1;".toList ∧
    computeTransformedTextWithConfig (fun _ => emptyParsedFile)
      emptyPartialConfig "//@debug".toList = .ok "//@debug".toList :=
  ⟨(transform_noop_outcomes (fun _ => emptyParsedFile) emptyPartialConfig
      "const x = 1;".toList).1 (by decide),
   (transform_noop_outcomes (fun _ => emptyParsedFile) emptyPartialConfig
      "//@debug".toList).2 ⟨Mode.debug, 0, 0⟩ rfl
     (fun ancestors h => by
        rcases h with h | h <;> exact Option.noConfusion h)⟩

/-- C10: whenever a marker is found and neither the ambiguity guard nor
scope resolution aborts, the output is rebuilt by splitting the input on
either terminator and rejoining every line with the one detected
terminator (`\r\n` if the input contains `\r\n` anywhere, else `\n`); on
the mixed-terminator demo input this normalizes every terminator to `\r\n`
even though no line's content changes, so the output differs from the
input while its lines are identical. -/
theorem eol_normalization (parse : Str → ParsedFile) (config : PartialConfig)
    (text : Str) (mi : MarkerInfo) (processingStartLine : Nat)
    (hm : getMarkerInfo text = .ok (some mi))
    (hguard : hasAmbiguousInnerProtectedCallBeforeMarker (splitLines text)
      mi.markerLine
      (getProtectedCallInfos (parse (parseTextFor mi.mode text)).calls
        (normalizeConfig config).protectedFunctions)
      (normalizeConfig config).protectedFunctions = false)
    (hscope : getProcessingStartLine (parse (parseTextFor mi.mode text))
      mi.markerOffset (normalizeConfig config).protectedFunctions =
        some processingStartLine) :
    computeTransformedTextWithConfig parse config text =
      .ok (joinLines (detectEol text)
        (transformLines mi.mode
          (pipelineProtected (parse (parseTextFor mi.mode text))
            (normalizeConfig config).protectedFunctions
            (normalizeConfig config).functionAllowlist (splitLines text))
          processingStartLine mi.markerLine (splitLines text))) ∧
    computeTransformedTextWithConfig (fun _ => mixedEolParsedFile)
      emptyPartialConfig mixedEolText = .ok mixedEolExpected ∧
    splitLines mixedEolExpected = splitLines mixedEolText ∧
    mixedEolExpected ≠ mixedEolText ∧
    hasCRLF mixedEolText = true ∧
    mixedEolExpected = joinLines ['\r', '\n'] (splitLines mixedEolText) := by
  refine ⟨?_, rfl, by decide, by decide, by decide, by decide⟩
  unfold computeTransformedTextWithConfig
  rw [hm]
  dsimp only
  rw [hguard, if_neg Bool.false_ne_true, hscope]

/-- Witness for `eol_normalization`: on the mixed-terminator demo file the
transform's output is the line array rejoined with the detected
terminator. -/
theorem eol_normalization_witness :
    computeTransformedTextWithConfig (fun _ => mixedEolParsedFile)
      emptyPartialConfig mixedEolText =
      .ok (joinLines (detectEol mixedEolText)
        (transformLines Mode.debug
          (pipelineProtected mixedEolParsedFile
            (normalizeConfig emptyPartialConfig).protectedFunctions
            (normalizeConfig emptyPartialConfig).functionAllowlist
            (splitLines mixedEolText))
          1 2 (splitLines mixedEolText))) :=
  (eol_normalization (fun _ => mixedEolParsedFile) emptyPartialConfig
    mixedEolText ⟨Mode.debug, 2, 27⟩ 1 rfl (by decide) rfl).1

end MochaDebug
